import Mathlib

/-!
Verification of the paisley CouchDB client (`paisley/client.py`).

The development shallowly embeds the parts of the client that the
specification's claims are about:

* the streaming response assembler (`ResponseReceiver`) together with a
  model of the incremental UTF-8 decoder it delegates to,
* the in-memory cache (`MemoryCache`),
* the document facade (`openDoc`, `listDoc`) with its percent-encoding
  helpers,
* the request engine (`_getPage`) with its authentication-retry logic,
* the session keepalive loop (`_startLC`).

Byte strings are modelled as `List Nat` (each entry one byte) and decoded
text as `List Nat` of Unicode code points; fallible operations return
`Except` or `Option`.  External collaborators (the JSON library, the HTTP
transport, twisted's deferred machinery) are modelled as oracles or
explicit event lists, mirroring the specification's scoping.
-/

namespace Paisley

/-! ## Incremental UTF-8 decoder

`ResponseReceiver` delegates decoding to `encodings.utf_8.IncrementalDecoder`
from the Python standard library (an external collaborator).  We model it as
the standard strict UTF-8 byte DFA: a pending multi-byte character is carried
between chunks as an accumulator together with the number of continuation
bytes still needed and the admissible range for the next byte (the first
continuation byte of a sequence has a lead-byte-dependent range, which is how
the strict decoder rejects overlong forms and surrogates).
-/

/-- State of a partially decoded multi-byte UTF-8 character: the accumulated
code-point bits, how many continuation bytes are still needed, and the
inclusive range allowed for the next byte. -/
structure PartialChar where
  acc : Nat
  needed : Nat
  lo : Nat
  hi : Nat
  deriving DecidableEq, Repr

/-- Feed one byte to the UTF-8 DFA.  Returns the emitted code points (zero or
one) and the new pending state, or an error for invalid input. -/
def stepByte : Option PartialChar → Nat → Except Unit (List Nat × Option PartialChar)
  | none, b =>
    if b < 0x80 then .ok ([b], none)
    else if b < 0xC2 then .error ()
    else if b < 0xE0 then .ok ([], some ⟨b - 0xC0, 1, 0x80, 0xBF⟩)
    else if b < 0xF0 then
      .ok ([], some ⟨b - 0xE0, 2, if b = 0xE0 then 0xA0 else 0x80,
                     if b = 0xED then 0x9F else 0xBF⟩)
    else if b < 0xF5 then
      .ok ([], some ⟨b - 0xF0, 3, if b = 0xF0 then 0x90 else 0x80,
                     if b = 0xF4 then 0x8F else 0xBF⟩)
    else .error ()
  | some p, b =>
    if p.lo ≤ b ∧ b ≤ p.hi then
      if p.needed = 1 then .ok ([p.acc * 64 + (b - 0x80)], none)
      else .ok ([], some ⟨p.acc * 64 + (b - 0x80), p.needed - 1, 0x80, 0xBF⟩)
    else .error ()

/-- Run the UTF-8 DFA over a byte list starting from a pending state. -/
def decodeBytes (st : Option PartialChar) : List Nat → Except Unit (List Nat × Option PartialChar)
  | [] => .ok ([], st)
  | b :: bs =>
    match stepByte st b with
    | .error e => .error e
    | .ok (emit, st') =>
      match decodeBytes st' bs with
      | .error e => .error e
      | .ok (cs, stf) => .ok (emit ++ cs, stf)

/-- Strict whole-input UTF-8 decoding (`bytes.decode('utf-8')`): the input
must end on a character boundary. -/
def utf8Decode (bs : List Nat) : Except Unit (List Nat) :=
  match decodeBytes none bs with
  | .ok (cs, none) => .ok cs
  | .ok (_, some _) => .error ()
  | .error e => .error e

/-- Model of `encodings.utf_8.IncrementalDecoder`: buffers an incomplete
multi-byte sequence between `decode` calls. -/
structure IncDecoder where
  pending : Option PartialChar
  deriving DecidableEq, Repr

/-- Source `IncrementalDecoder.decode(input, final)`: decode what is complete, keep
the incomplete tail; with `final` set, an incomplete tail is an error. -/
def IncDecoder.decode (d : IncDecoder) (input : List Nat) (final : Bool) :
    Except Unit (List Nat × IncDecoder) :=
  match decodeBytes d.pending input with
  | .error e => .error e
  | .ok (cs, st') =>
    if final ∧ st' ≠ none then .error () else .ok (cs, ⟨st'⟩)

/-! ## Response assembler (`ResponseReceiver`)

`ResponseReceiver.__init__` builds an incremental decoder exactly when
`decode_utf8` is set; `dataReceived` optionally decodes a chunk and appends
it to `recv_chunks`; `connectionLost` on `ResponseDone` or
`PotentialDataLoss` performs one final decode pass over an empty chunk with
`final=True` and resolves the deferred with the joined chunks, and rejects
the deferred with the reason otherwise.
-/

/-- Model of the `paisley.client.ResponseReceiver` protocol instance. -/
structure ResponseReceiver where
  recv_chunks : List (List Nat)
  decoder : Option IncDecoder

/-- Source `ResponseReceiver.__init__(deferred, decode_utf8)`. -/
def ResponseReceiver.make (decode_utf8 : Bool) : ResponseReceiver :=
  ⟨[], if decode_utf8 then some ⟨none⟩ else none⟩

/-- Source `ResponseReceiver.dataReceived(bytes, final)`: decode the chunk when a
decoder is present (a decoding failure is an uncaught exception, modelled as
`.error`), then append it to `recv_chunks`. -/
def ResponseReceiver.dataReceived (r : ResponseReceiver) (bs : List Nat) (final : Bool) :
    Except Unit ResponseReceiver :=
  match r.decoder with
  | some d =>
    match d.decode bs final with
    | .error e => .error e
    | .ok (cs, d') => .ok ⟨r.recv_chunks ++ [cs], some d'⟩
  | none => .ok ⟨r.recv_chunks ++ [bs], none⟩

/-- The termination reason handed to `connectionLost`. -/
inductive LostReason where
  | responseDone
  | potentialDataLoss
  | failure
  deriving DecidableEq, Repr

/-- Source `ResponseReceiver.connectionLost(reason)`: on normal or partial-data
termination, run the final decode pass on an empty chunk and resolve the
deferred with the joined chunks (`.ok (some s)`); otherwise reject the
deferred (`.ok none`).  `.error` is an exception escaping the callback. -/
def ResponseReceiver.connectionLost (r : ResponseReceiver) (reason : LostReason) :
    Except Unit (Option (List Nat)) :=
  match reason with
  | .responseDone | .potentialDataLoss =>
    match r.dataReceived [] true with
    | .ok r' => .ok (some r'.recv_chunks.flatten)
    | .error e => .error e
  | .failure => .ok none

/-- Deliver a list of body chunks to a receiver via `dataReceived`. -/
def feedAll (r : ResponseReceiver) : List (List Nat) → Except Unit ResponseReceiver
  | [] => .ok r
  | c :: cs =>
    match r.dataReceived c false with
    | .error e => .error e
    | .ok r' => feedAll r' cs

/-- A full response lifecycle: construct the receiver, stream the chunks,
then terminate with the given reason. -/
def runReceiver (decode_utf8 : Bool) (chunks : List (List Nat)) (reason : LostReason) :
    Except Unit (Option (List Nat)) :=
  match feedAll (ResponseReceiver.make decode_utf8) chunks with
  | .error e => .error e
  | .ok r => r.connectionLost reason

/-! ### Decoder lemmas -/

/-- Running the UTF-8 DFA over a concatenation processes the pieces in
sequence, threading the pending state. -/
theorem decodeBytes_append (a b : List Nat) : ∀ st,
    decodeBytes st (a ++ b) =
      match decodeBytes st a with
      | .error e => .error e
      | .ok (cs, st1) =>
        match decodeBytes st1 b with
        | .error e => .error e
        | .ok (cs2, st2) => .ok (cs ++ cs2, st2) := by
  induction a with
  | nil =>
    intro st
    simp only [List.nil_append, decodeBytes]
    cases h : decodeBytes st b with
    | error e => simp
    | ok v => obtain ⟨cs2, st2⟩ := v; simp
  | cons x xs ih =>
    intro st
    simp only [List.cons_append, decodeBytes]
    cases hs : stepByte st x with
    | error e => simp
    | ok v =>
      obtain ⟨emit, st'⟩ := v
      dsimp only
      rw [List.append_eq, ih st']
      cases h1 : decodeBytes st' xs with
      | error e => simp
      | ok v1 =>
        obtain ⟨cs, st1⟩ := v1
        cases h2 : decodeBytes st1 b with
        | error e => simp [h2]
        | ok v2 => obtain ⟨cs2, st2⟩ := v2; simp [h2]

/-- Streaming chunks into a decoding receiver accumulates exactly the DFA
decoding of the concatenated bytes, and leaves the DFA's pending state
buffered in the receiver. -/
theorem feedAll_decode (chunks : List (List Nat)) :
    ∀ (st : Option PartialChar) (acc : List (List Nat)) (cs : List Nat)
      (stf : Option PartialChar),
      decodeBytes st chunks.flatten = .ok (cs, stf) →
      ∃ out, feedAll ⟨acc, some ⟨st⟩⟩ chunks = .ok ⟨acc ++ out, some ⟨stf⟩⟩ ∧
        out.flatten = cs := by
  induction chunks with
  | nil =>
    intro st acc cs stf h
    simp only [List.flatten_nil, decodeBytes] at h
    cases h
    exact ⟨[], by simp [feedAll], rfl⟩
  | cons c rest ih =>
    intro st acc cs stf h
    rw [List.flatten_cons, decodeBytes_append] at h
    split at h
    · cases h
    · rename_i cs1 st1 h1
      split at h
      · cases h
      · rename_i cs2 st2 h2
        cases h
        obtain ⟨out2, hfeed, hflat⟩ := ih st1 (acc ++ [cs1]) cs2 stf h2
        refine ⟨cs1 :: out2, ?_, by simp [hflat]⟩
        simp only [feedAll, ResponseReceiver.dataReceived, IncDecoder.decode, h1]
        simpa using hfeed

/-- C8: a response assembler created with `decode_utf8` true, fed any
sequence of binary chunks whose concatenation is valid UTF-8 and terminated
normally or by the partial-data condition, resolves its deferred with the
UTF-8 decoding of the concatenated bytes — incomplete multi-byte sequences
are buffered across chunk boundaries and flushed by the final decode pass. -/
theorem responseReceiver_decodes_utf8_across_chunks
    (chunks : List (List Nat)) (s : List Nat) (reason : LostReason)
    (hr : reason = .responseDone ∨ reason = .potentialDataLoss)
    (hd : utf8Decode chunks.flatten = .ok s) :
    runReceiver true chunks reason = .ok (some s) := by
  have hdec : decodeBytes none chunks.flatten = .ok (s, none) := by
    unfold utf8Decode at hd
    split at hd
    · rename_i cs heq
      cases hd
      exact heq
    · cases hd
    · cases hd
  obtain ⟨out, hfeed, hflat⟩ := feedAll_decode chunks none [] s none hdec
  have hmake : ResponseReceiver.make true = ⟨[], some ⟨none⟩⟩ := rfl
  unfold runReceiver
  rw [hmake, hfeed]
  rcases hr with rfl | rfl <;>
    simp [ResponseReceiver.connectionLost, ResponseReceiver.dataReceived,
      IncDecoder.decode, decodeBytes, hflat]

/-- Witness for C8: the chunks `["H", 0xC3]` and `[0xA9, "llo"]` split the
two-byte encoding of é across the boundary, and the assembler resolves with
the code points of `"Héllo"`. -/
theorem responseReceiver_decodes_utf8_across_chunks_witness :
    utf8Decode ([[0x48, 0xC3], [0xA9, 0x6C, 0x6C, 0x6F]] : List (List Nat)).flatten =
        .ok [0x48, 0xE9, 0x6C, 0x6C, 0x6F] ∧
      runReceiver true [[0x48, 0xC3], [0xA9, 0x6C, 0x6C, 0x6F]] .responseDone =
        .ok (some [0x48, 0xE9, 0x6C, 0x6C, 0x6F]) :=
  ⟨rfl, responseReceiver_decodes_utf8_across_chunks _ _ _ (Or.inl rfl) rfl⟩

/-! ## In-memory cache (`MemoryCache`)

Python dictionaries are modelled as functions `String → Option _`; the two
mappings (`_docCache`, `_objCache`) are independent.  The counters
(`lookups`, `hits`, `cached`) are Python ints, modelled as `Nat`/`Int`
matching their use.  The `docs`/`objects` fields model `_docs`/`_objects`.
-/

/-- Model of `paisley.client.MemoryCache` state. -/
structure MemoryCache (V O : Type) where
  docCache : String → Option V
  objCache : String → Option O
  lookups : Nat
  hits : Nat
  cached : Int
  docs : Bool
  objects : Bool

/-- Source `MemoryCache.__init__(docs=True, objects=True)` — note the constructor
arguments are ignored: both flags are assigned `True` unconditionally. -/
def MemoryCache.init {V O : Type} (docsArg objectsArg : Bool) : MemoryCache V O :=
  { docCache := fun _ => none
    objCache := fun _ => none
    lookups := 0
    hits := 0
    cached := 0
    docs := true
    objects := true }

/-- Source `MemoryCache.store(key, value)`: unconditionally overwrite the document
entry, bump the `cached` counter, and fire `True`. -/
def MemoryCache.store {V O : Type} (c : MemoryCache V O) (key : String) (value : V) :
    MemoryCache V O × Bool :=
  ({ c with docCache := fun k => if k = key then some value else c.docCache k
            cached := c.cached + 1 }, true)

/-- Source `MemoryCache.get(key)`: bump `lookups`, then either raise `KeyError`
(modelled as `none`, leaving `hits` untouched) or bump `hits` and fire the
value. -/
def MemoryCache.get {V O : Type} (c : MemoryCache V O) (key : String) :
    MemoryCache V O × Option V :=
  let c1 := { c with lookups := c.lookups + 1 }
  match c.docCache key with
  | none => (c1, none)
  | some v => ({ c1 with hits := c1.hits + 1 }, some v)

/-- Source `MemoryCache.getObject(key)`: same protocol as `get` on the object
mapping. -/
def MemoryCache.getObject {V O : Type} (c : MemoryCache V O) (key : String) :
    MemoryCache V O × Option O :=
  let c1 := { c with lookups := c.lookups + 1 }
  match c.objCache key with
  | none => (c1, none)
  | some v => ({ c1 with hits := c1.hits + 1 }, some v)

/-- Source `MemoryCache.mapped(key, obj)`: no-op when object caching is disabled
or the key is already present; otherwise record the object (first write
wins) and bump `cached`. -/
def MemoryCache.mapped {V O : Type} (c : MemoryCache V O) (key : String) (obj : O) :
    MemoryCache V O :=
  if !c.objects then c
  else if (c.objCache key).isNone then
    { c with objCache := fun k => if k = key then some obj else c.objCache k
             cached := c.cached + 1 }
  else c

/-- Source `MemoryCache.delete(key)`: delete the key from both mappings (each
`del` wrapped in try/except), decrement `cached` when anything was deleted,
and unconditionally fire `True`. -/
def MemoryCache.delete {V O : Type} (c : MemoryCache V O) (key : String) :
    MemoryCache V O × Bool :=
  let deleted := (c.docCache key).isSome || (c.objCache key).isSome
  ({ c with docCache := fun k => if k = key then none else c.docCache k
            objCache := fun k => if k = key then none else c.objCache k
            cached := if deleted then c.cached - 1 else c.cached }, true)

/-- One cache operation, for stating invariants over operation sequences. -/
inductive CacheOp (V O : Type) where
  | store (key : String) (value : V)
  | get (key : String)
  | getObject (key : String)
  | mapped (key : String) (obj : O)
  | delete (key : String)

/-- Run one operation for its state effect. -/
def applyOp {V O : Type} (c : MemoryCache V O) : CacheOp V O → MemoryCache V O
  | .store k v => (c.store k v).1
  | .get k => (c.get k).1
  | .getObject k => (c.getObject k).1
  | .mapped k o => c.mapped k o
  | .delete k => (c.delete k).1

/-- Run a sequence of operations for their state effects. -/
def applyOps {V O : Type} (c : MemoryCache V O) (ops : List (CacheOp V O)) : MemoryCache V O :=
  ops.foldl applyOp c

/-- Whether an operation is a `store` or `delete` on document id `d`. -/
def opTouches {V O : Type} (d : String) : CacheOp V O → Bool
  | .store k _ => k == d
  | .delete k => k == d
  | _ => false

/-- Operations that are not `store d ·` or `delete d` leave the document
entry for `d` unchanged. -/
theorem applyOp_docCache {V O : Type} (c : MemoryCache V O) (d : String) (op : CacheOp V O)
    (h : opTouches d op = false) : (applyOp c op).docCache d = c.docCache d := by
  cases op with
  | store k v =>
    have hk : ¬ (d = k) := by
      simp only [opTouches, beq_eq_false_iff_ne] at h
      exact fun hd => h hd.symm
    simp [applyOp, MemoryCache.store, hk]
  | get k =>
    simp only [applyOp, MemoryCache.get]
    split <;> rfl
  | getObject k =>
    simp only [applyOp, MemoryCache.getObject]
    split <;> rfl
  | mapped k o =>
    simp only [applyOp, MemoryCache.mapped]
    split
    · rfl
    · split <;> rfl
  | delete k =>
    have hk : ¬ (d = k) := by
      simp only [opTouches, beq_eq_false_iff_ne] at h
      exact fun hd => h hd.symm
    simp [applyOp, MemoryCache.delete, hk]

/-- A sequence of operations none of which stores to or deletes `d` leaves
the document entry for `d` unchanged. -/
theorem applyOps_docCache {V O : Type} (d : String) (ops : List (CacheOp V O)) :
    ∀ c : MemoryCache V O, (∀ op ∈ ops, opTouches d op = false) →
      (applyOps c ops).docCache d = c.docCache d := by
  induction ops with
  | nil => intro c _; rfl
  | cons op rest ih =>
    intro c h
    have h1 : opTouches d op = false := h op (List.mem_cons_self op rest)
    have h2 : ∀ o ∈ rest, opTouches d o = false := fun o ho => h o (List.mem_cons_of_mem _ ho)
    show (applyOps (applyOp c op) rest).docCache d = c.docCache d
    rw [ih (applyOp c op) h2, applyOp_docCache c d op h1]

/-- C9: after `store(d, v)` — which always overwrites any existing entry —
every subsequent `get(d)` returns exactly `v` as long as no `delete(d)` and
no further `store(d, ·)` intervenes. -/
theorem cache_store_get_roundtrip (V O : Type) (c : MemoryCache V O) (d : String) (v : V)
    (ops : List (CacheOp V O)) (h : ∀ op ∈ ops, opTouches d op = false) :
    ((applyOps (c.store d v).1 ops).get d).2 = some v := by
  have hdoc : (applyOps (c.store d v).1 ops).docCache d = some v := by
    rw [applyOps_docCache d ops _ h]
    simp [MemoryCache.store]
  simp [MemoryCache.get, hdoc]

/-- Witness for C9: a concrete run where stores, deletes and lookups on
other keys (and reads of `d` itself) do not disturb the stored value. -/
theorem cache_store_get_roundtrip_witness :
    (∀ op ∈ ([.store "e" 1, .get "d", .mapped "d" 7, .delete "e", .getObject "d"] :
        List (CacheOp Nat Nat)), opTouches "d" op = false) ∧
      ((applyOps ((MemoryCache.init true true : MemoryCache Nat Nat).store "d" 5).1
          [.store "e" 1, .get "d", .mapped "d" 7, .delete "e", .getObject "d"]).get "d").2 =
        some 5 :=
  ⟨by decide, cache_store_get_roundtrip Nat Nat _ "d" 5 _ (by decide)⟩

/-- C5 counterexample: deleting a key absent from both mappings still fires
`True` — `MemoryCache.delete` does not report whether anything was removed
(it returns `defer.succeed(True)` unconditionally). -/
theorem memoryCache_delete_absent_fires_true :
    (MemoryCache.init true true : MemoryCache Nat Nat).docCache "d" = none ∧
      (MemoryCache.init true true : MemoryCache Nat Nat).objCache "d" = none ∧
      ((MemoryCache.init true true : MemoryCache Nat Nat).delete "d").2 = true :=
  ⟨rfl, rfl, rfl⟩

/-- C5 amended: `delete(d)` removes `d` from both the document and object
mappings when present in either, and always fires `True` (regardless of
whether anything was removed); afterwards `get(d)` and `getObject(d)` fail
with the cache-miss signal. -/
theorem memoryCache_delete_removes_both (V O : Type) (c : MemoryCache V O) (d : String) :
    ((c.delete d).2 = true) ∧
      (c.delete d).1.docCache d = none ∧
      (c.delete d).1.objCache d = none ∧
      ((c.delete d).1.get d).2 = none ∧
      ((c.delete d).1.getObject d).2 = none := by
  refine ⟨rfl, ?_, ?_, ?_, ?_⟩ <;>
    simp [MemoryCache.delete, MemoryCache.get, MemoryCache.getObject]

/-- C10: the `docs`/`objects` constructor arguments of `MemoryCache` are
ignored — both flags are unconditionally `True`, so `store` always records
a document entry and `mapped` always records a first-write object entry;
object caching cannot be disabled through the constructor. -/
theorem memoryCache_flags_always_enabled (V O : Type) (docsArg objectsArg : Bool)
    (k : String) (v : V) (o : O) :
    (MemoryCache.init docsArg objectsArg : MemoryCache V O).docs = true ∧
      (MemoryCache.init docsArg objectsArg : MemoryCache V O).objects = true ∧
      ((MemoryCache.init docsArg objectsArg : MemoryCache V O).store k v).1.docCache k = some v ∧
      ((MemoryCache.init docsArg objectsArg : MemoryCache V O).mapped k o).objCache k = some o := by
  refine ⟨rfl, rfl, ?_, ?_⟩ <;>
    simp [MemoryCache.init, MemoryCache.store, MemoryCache.mapped]

/-! ## Encoding helpers

`_namequote(name)` is `urllib.parse.quote(name, safe='')`;
`urlencode` percent-encodes with `quote_plus`; the Basic-auth header uses
`base64.b64encode`.  These stdlib helpers are modelled byte-exactly.
-/

/-- UTF-8 encoding of one code point. -/
def utf8EncodeChar (n : Nat) : List Nat :=
  if n < 0x80 then [n]
  else if n < 0x800 then [0xC0 + n / 64, 0x80 + n % 64]
  else if n < 0x10000 then [0xE0 + n / 4096, 0x80 + n / 64 % 64, 0x80 + n % 64]
  else [0xF0 + n / 262144, 0x80 + n / 4096 % 64, 0x80 + n / 64 % 64, 0x80 + n % 64]

/-- The UTF-8 bytes of a string (`s.encode('utf-8')`). -/
def strBytes (s : String) : List Nat :=
  (s.data.map fun c => utf8EncodeChar c.toNat).flatten

/-- Uppercase hexadecimal digit, as used by `urllib.parse.quote`. -/
def hexUpperDigit (n : Nat) : Char :=
  "0123456789ABCDEF".data.getD n '0'

/-- The characters `urllib.parse` never quotes: ASCII letters, digits, and
`_.-~`. -/
def isAlwaysSafeByte (b : Nat) : Bool :=
  (0x41 ≤ b && b ≤ 0x5A) || (0x61 ≤ b && b ≤ 0x7A) || (0x30 ≤ b && b ≤ 0x39) ||
    b == 0x5F || b == 0x2E || b == 0x2D || b == 0x7E

/-- Percent-encode one byte unless it is always-safe or in `safe`. -/
def quoteByte (safe : List Nat) (b : Nat) : List Char :=
  if isAlwaysSafeByte b || safe.contains b then [Char.ofNat b]
  else ['%', hexUpperDigit (b / 16), hexUpperDigit (b % 16)]

/-- Source `urllib.parse.quote(s, safe)`. -/
def pyQuote (s : String) (safe : String) : String :=
  ⟨((strBytes s).map (quoteByte (strBytes safe))).flatten⟩

/-- Source `paisley.client._namequote`: quote with slashes also encoded
(`safe=''`). -/
def namequote (name : String) : String := pyQuote name ""

/-- Source `urllib.parse.quote_plus(s)` with the default empty `safe` set, as used
by `urlencode`: spaces become `+`. -/
def pyQuotePlus (s : String) : String :=
  ⟨((strBytes s).map fun b => if b = 32 then ['+'] else quoteByte [] b).flatten⟩

/-- Source `urllib.parse.urlencode` over an ordered association list. -/
def urlencode (args : List (String × String)) : String :=
  String.intercalate "&" (args.map fun p => pyQuotePlus p.1 ++ "=" ++ pyQuotePlus p.2)

/-- The base64 alphabet. -/
def b64chars : List Char :=
  "ABCDEFGHIJKLMNOPQRSTUVWXYZabcdefghijklmnopqrstuvwxyz0123456789+/".data

/-- Index into the base64 alphabet. -/
def b64char (n : Nat) : Char := b64chars.getD n 'A'

/-- Base64-encode a byte list with `=` padding. -/
def b64encodeBytes : List Nat → List Char
  | [] => []
  | [a] => [b64char (a / 4), b64char (a % 4 * 16), '=', '=']
  | [a, b] => [b64char (a / 4), b64char (a % 4 * 16 + b / 16), b64char (b % 16 * 4), '=']
  | a :: b :: c :: rest =>
    b64char (a / 4) :: b64char (a % 4 * 16 + b / 16) :: b64char (b % 16 * 4 + c / 64) ::
      b64char (c % 64) :: b64encodeBytes rest

/-- Source `base64.b64encode` over the UTF-8 bytes of a string. -/
def b64encode (s : String) : String := ⟨b64encodeBytes (strBytes s)⟩

/-! ## Document open (`openDoc` / `_cacheResult`)

The network GET (which goes through `_getPage`) is modelled as an oracle
from the request to the successful body text; `parseResult` (`json.loads`,
an external library per the spec) is likewise an oracle.  The model records
the list of network requests issued, the cache state after the call, and
the value the returned deferred fires.
-/

/-- A GET issued by the document facade: target uri and whether it is a
JSON request (`isJson`). -/
structure GetReq where
  uri : String
  isJson : Bool
  deriving DecidableEq, Repr

/-- The slice of `CouchDB` state that `openDoc` uses. -/
structure DocClient (V O : Type) where
  cache : Option (MemoryCache V O)
  parseResult : String → V
  net : GetReq → String

/-- Value fired by `openDoc`: a parsed JSON document or a raw attachment
body. -/
inductive DocResult (V : Type) where
  | parsed (v : V)
  | raw (body : String)

/-- Outcome of an `openDoc` call. -/
structure OpenDocOut (V O : Type) where
  issued : List GetReq
  cache : Option (MemoryCache V O)
  result : DocResult V

/-- Source `docId.startswith('_')`, on the underlying characters. -/
def startsWithUnderscore (s : String) : Bool :=
  match s.data with
  | c :: _ => c == '_'
  | [] => false

/-- The document uri built by `openDoc`: the docId is percent-encoded
unless it starts with `_` (`_design`, `_local`, ...). -/
def openDocUri (dbName docId : String) : String :=
  let docIdUri := if startsWithUnderscore docId then docId else namequote docId
  "/" ++ namequote dbName ++ "/" ++ docIdUri

/-- The shared tail of `openDoc` for document (non-attachment) fetches:
`if self._cache: try: return self._cache.get(docId) except: pass`, then
GET → `parseResult` → `_cacheResult` (which stores under `docId`). -/
def openDocFetch {V O : Type} (cl : DocClient V O) (uri docId : String) : OpenDocOut V O :=
  match cl.cache with
  | some c =>
    let looked := c.get docId
    match looked.2 with
    | some v => { issued := [], cache := some looked.1, result := .parsed v }
    | none =>
      let req : GetReq := ⟨uri, true⟩
      let v := cl.parseResult (cl.net req)
      { issued := [req], cache := some (looked.1.store docId v).1, result := .parsed v }
  | none =>
    let req : GetReq := ⟨uri, true⟩
    { issued := [req], cache := none, result := .parsed (cl.parseResult (cl.net req)) }

/-- Source `CouchDB.openDoc(dbName, docId, revision=None, full=False,
attachment="")`, with its `if revision is not None / elif full /
elif attachment` chain. -/
def openDoc {V O : Type} (cl : DocClient V O) (dbName docId : String)
    (revision : Option String) (full : Bool) (attachment : String) : OpenDocOut V O :=
  let uri := openDocUri dbName docId
  match revision with
  | some rev => openDocFetch cl (uri ++ "?" ++ urlencode [("rev", rev)]) docId
  | none =>
    if full then openDocFetch cl (uri ++ "?" ++ urlencode [("full", "true")]) docId
    else if attachment ≠ "" then
      let auri := uri ++ "/" ++ pyQuote attachment "/"
      { issued := [⟨auri, false⟩], cache := cl.cache, result := .raw (cl.net ⟨auri, false⟩) }
    else openDocFetch cl uri docId

/-- C2: a plain `openDoc` (no revision, full or attachment) with a cache
configured returns the cached value with no network request on a hit; on a
miss (the cache-lookup failure is swallowed by the bare `except`) it issues
exactly one GET, stores the parsed body into the document cache under
`docId`, and fires that parsed value. -/
theorem openDoc_cache_read_through (V O : Type) (mc : MemoryCache V O)
    (parse : String → V) (net : GetReq → String) (dbName docId : String) :
    (∀ v, mc.docCache docId = some v →
        (openDoc ⟨some mc, parse, net⟩ dbName docId none false "").issued = [] ∧
          (openDoc ⟨some mc, parse, net⟩ dbName docId none false "").result = .parsed v) ∧
      (mc.docCache docId = none →
        (openDoc ⟨some mc, parse, net⟩ dbName docId none false "").issued =
            [⟨openDocUri dbName docId, true⟩] ∧
          (openDoc ⟨some mc, parse, net⟩ dbName docId none false "").result =
            .parsed (parse (net ⟨openDocUri dbName docId, true⟩)) ∧
          ∃ c', (openDoc ⟨some mc, parse, net⟩ dbName docId none false "").cache = some c' ∧
            c'.docCache docId = some (parse (net ⟨openDocUri dbName docId, true⟩))) := by
  constructor
  · intro v hv
    constructor <;> simp [openDoc, openDocFetch, MemoryCache.get, hv]
  · intro hv
    refine ⟨?_, ?_, ?_⟩ <;>
      simp [openDoc, openDocFetch, MemoryCache.get, MemoryCache.store, hv]

/-- Witness for C2: a hit returns the stored value with no request; a miss
on a fresh cache issues one GET and caches the parsed body. -/
theorem openDoc_cache_read_through_witness :
    ((openDoc ⟨some ((MemoryCache.init true true : MemoryCache Nat Nat).store "d" 9).1,
          fun s => s.length, fun _ => "abc"⟩ "db" "d" none false "").issued = [] ∧
        (openDoc ⟨some ((MemoryCache.init true true : MemoryCache Nat Nat).store "d" 9).1,
          fun s => s.length, fun _ => "abc"⟩ "db" "d" none false "").result = .parsed 9) ∧
      ((openDoc ⟨some (MemoryCache.init true true : MemoryCache Nat Nat),
          fun s => s.length, fun _ => "abc"⟩ "db" "d" none false "").issued =
          [⟨openDocUri "db" "d", true⟩] ∧
        (openDoc ⟨some (MemoryCache.init true true : MemoryCache Nat Nat),
          fun s => s.length, fun _ => "abc"⟩ "db" "d" none false "").result =
          .parsed ((fun s => s.length) ((fun _ => "abc") (⟨openDocUri "db" "d", true⟩ : GetReq))) ∧
        ∃ c', (openDoc ⟨some (MemoryCache.init true true : MemoryCache Nat Nat),
            fun s => s.length, fun _ => "abc"⟩ "db" "d" none false "").cache = some c' ∧
          c'.docCache "d" =
            some ((fun s => s.length) ((fun _ => "abc") (⟨openDocUri "db" "d", true⟩ : GetReq)))) :=
  ⟨(openDoc_cache_read_through Nat Nat _ _ _ "db" "d").1 9 (by decide),
    (openDoc_cache_read_through Nat Nat _ _ _ "db" "d").2 rfl⟩

/-- C3 counterexample: calling `openDoc` with both a revision and an
attachment issues the JSON document GET with `?rev=` (and not the non-JSON
attachment GET the claim predicts): `revision` takes priority over
`attachment`. -/
theorem openDoc_attachment_not_priority :
    (openDoc (⟨none, fun _ => 0, fun _ => "b"⟩ : DocClient Nat Nat)
        "db" "doc" (some "1") false "att").issued = [⟨"/db/doc?rev=1", true⟩] ∧
      ¬ (openDoc (⟨none, fun _ => 0, fun _ => "b"⟩ : DocClient Nat Nat)
          "db" "doc" (some "1") false "att").issued = [⟨"/db/doc/att", false⟩] := by
  constructor
  · decide
  · decide

/-- C3 amended: `openDoc` resolves its optional arguments with priority
revision > full > attachment — a given revision appends `?rev=` and fetches
the document (JSON, cache-consulting) regardless of `full`/`attachment`; a
given `full` without revision appends `?full=true` regardless of
`attachment`; only when both are absent is a non-empty attachment fetched
via a non-JSON GET with no parsing and no cache change. -/
theorem openDoc_argument_priority (V O : Type) (cl : DocClient V O) (dbName docId : String) :
    (∀ rev fl att, openDoc cl dbName docId (some rev) fl att =
        openDocFetch cl (openDocUri dbName docId ++ "?" ++ urlencode [("rev", rev)]) docId) ∧
      (∀ att, openDoc cl dbName docId none true att =
        openDocFetch cl (openDocUri dbName docId ++ "?" ++ urlencode [("full", "true")]) docId) ∧
      (∀ att, att ≠ "" → openDoc cl dbName docId none false att =
        { issued := [⟨openDocUri dbName docId ++ "/" ++ pyQuote att "/", false⟩]
          cache := cl.cache
          result := .raw (cl.net ⟨openDocUri dbName docId ++ "/" ++ pyQuote att "/", false⟩) }) := by
  refine ⟨fun rev fl att => rfl, fun att => rfl, fun att hatt => ?_⟩
  simp [openDoc, hatt]

/-- Witness for C3 amended: with revision, full and attachment all given,
the call is the `?rev=` document fetch; with only an attachment given, the
call is the non-JSON attachment fetch. -/
theorem openDoc_argument_priority_witness :
    (openDoc (⟨none, fun _ => 0, fun _ => "b"⟩ : DocClient Nat Nat)
        "db" "doc" (some "1") true "att" =
      openDocFetch (⟨none, fun _ => 0, fun _ => "b"⟩ : DocClient Nat Nat)
        (openDocUri "db" "doc" ++ "?" ++ urlencode [("rev", "1")]) "doc") ∧
      openDoc (⟨none, fun _ => 0, fun _ => "b"⟩ : DocClient Nat Nat)
          "db" "doc" none false "att" =
        { issued := [⟨openDocUri "db" "doc" ++ "/" ++ pyQuote "att" "/", false⟩]
          cache := none
          result := .raw ((fun _ => "b")
            (⟨openDocUri "db" "doc" ++ "/" ++ pyQuote "att" "/", false⟩ : GetReq)) } :=
  ⟨(openDoc_argument_priority Nat Nat _ "db" "doc").1 "1" true "att",
    (openDoc_argument_priority Nat Nat _ "db" "doc").2.2 "att" (by decide)⟩

/-! ## Document listing (`listDoc`)

`listDoc(dbName, reverse=False, startkey=None, endkey=None,
include_docs=False, limit=-1, **obsolete)`: a deprecated `count` key in
`obsolete` is popped into `limit` (with a `DeprecationWarning`); any other
leftover key raises before the GET is issued.  `startkey`/`endkey` go
through `json.dumps` (external JSON library, modelled as the `dumps`
oracle); query values are rendered as `urlencode` renders `str` of the
Python values (`"true"`, `True`, ints).
-/

/-- Outcome of a `listDoc` call: either the GET uri that is issued (with
whether the deprecation warning fired) or the raised unknown-parameter
error, which issues no request. -/
inductive ListDocOutcome where
  | request (uri : String) (warned : Bool)
  | error (unknownKeys : List String)
  deriving DecidableEq, Repr

/-- Source `CouchDB.listDoc`. -/
def listDoc (dbName : String) (reverse : Bool) (startkey endkey : Option String)
    (include_docs : Bool) (limit : Int) (obsolete : List (String × Int))
    (dumps : String → String) : ListDocOutcome :=
  let warned := obsolete.any fun p => p.1 == "count"
  let limit := match obsolete.lookup "count" with
    | some n => n
    | none => limit
  let rest := obsolete.filter fun p => p.1 != "count"
  if rest = [] then
    let uri := "/" ++ namequote dbName ++ "/_all_docs"
    let args : List (String × String) :=
      (if reverse then [("reverse", "true")] else []) ++
        (match startkey with
         | some sk => if sk != "" then [("startkey", dumps sk)] else []
         | none => []) ++
        (match endkey with
         | some ek => if ek != "" then [("endkey", dumps ek)] else []
         | none => []) ++
        (if include_docs then [("include_docs", "True")] else []) ++
        (if 0 ≤ limit then [("limit", toString limit)] else [])
    .request (if args = [] then uri else uri ++ "?" ++ urlencode args) warned
  else .error (rest.map Prod.fst)

/-- Mark a `listDoc` outcome as having fired the deprecation warning. -/
def setWarned : ListDocOutcome → ListDocOutcome
  | .request uri _ => .request uri true
  | .error ks => .error ks

/-- C7: a keyword argument other than the recognized parameters and other
than the deprecated `count` makes `listDoc` raise its unknown-parameter
error (`AttributeError` in the source, `UnknownParameterError` in the
spec's taxonomy) with no request issued; `count` alone is accepted as an
alias for `limit`, behaving exactly as the corresponding `limit` call
except for the deprecation warning. -/
theorem listDoc_unknown_kwarg (dbName : String) (reverse include_docs : Bool)
    (startkey endkey : Option String) (limit : Int) (obsolete : List (String × Int))
    (dumps : String → String)
    (h : obsolete.filter (fun p => p.1 != "count") ≠ []) :
    listDoc dbName reverse startkey endkey include_docs limit obsolete dumps =
        .error ((obsolete.filter fun p => p.1 != "count").map Prod.fst) ∧
      ∀ n limit0, listDoc dbName reverse startkey endkey include_docs limit0
          [("count", n)] dumps =
        setWarned (listDoc dbName reverse startkey endkey include_docs n [] dumps) := by
  constructor
  · simp only [listDoc]
    rw [if_neg h]
  · intro n limit0
    simp [listDoc, setWarned, List.lookup]

/-- Witness for C7: `foo=1` raises with no request; `count=5` behaves as
`limit=5` plus the warning. -/
theorem listDoc_unknown_kwarg_witness :
    listDoc "db" false none none false (-1) [("foo", 1)] (fun s => s) = .error ["foo"] ∧
      listDoc "db" false none none false (-1) [("count", 5)] (fun s => s) =
        setWarned (listDoc "db" false none none false 5 [] (fun s => s)) :=
  ⟨(listDoc_unknown_kwarg "db" false false none none (-1) [("foo", 1)] (fun s => s)
      (by decide)).1,
    (listDoc_unknown_kwarg "db" false false none none (-1) [("foo", 1)] (fun s => s)
      (by decide)).2 5 (-1)⟩

/-! ## Session keepalive loop (`_startLC`)

twisted's `LoopingCall` objects are modelled as timers with an identity, an
interval and a running flag; `_authLC` holds the id of the client's current
looping call.  `_startLC` stops the previous call if one exists, then
creates and starts a fresh `LoopingCall` whose body issues `self.get('')`.
-/

/-- Source `AUTH_WINDOW = 300  # half of default`. -/
def AUTH_WINDOW : Nat := 300

/-- A `task.LoopingCall` as visible to this model. -/
structure LoopingTimer where
  id : Nat
  interval : Nat
  running : Bool
  deriving DecidableEq, Repr

/-- The keepalive-related state of a client: all looping calls ever
created, a fresh-id counter, and `_authLC`. -/
structure LCState where
  timers : List LoopingTimer
  nextId : Nat
  authLC : Option Nat
  deriving DecidableEq, Repr

/-- Source `self._authLC.stop()`. -/
def lcStopTimer (s : LCState) (i : Nat) : LCState :=
  { s with timers := s.timers.map fun t => if t.id = i then { t with running := false } else t }

/-- Source `CouchDB._startLC`: stop the previous looping call if any, then start a
new one with interval `AUTH_WINDOW`. -/
def startLC (s : LCState) : LCState :=
  let s1 := match s.authLC with
    | some i => lcStopTimer s i
    | none => s
  { timers := s1.timers ++ [⟨s1.nextId, AUTH_WINDOW, true⟩]
    nextId := s1.nextId + 1
    authLC := some s1.nextId }

/-- The request the keepalive loop body issues: `self.get('')`, a GET with
an empty path (the server root). -/
def lcLoopRequest : String × String := ("GET", "")

/-- Invariant tying running timers to `_authLC`: every running looping call
is the one `_authLC` points at. -/
def KeepaliveInv (s : LCState) : Prop :=
  ∀ t ∈ s.timers, t.running = true → s.authLC = some t.id

/-- C4 counterexample: the timer started by `_startLC` has interval
`AUTH_WINDOW = 300` seconds, not the claimed 150 seconds. -/
theorem startLC_interval_not_150 :
    (startLC ⟨[], 0, none⟩).timers.map LoopingTimer.interval = [AUTH_WINDOW] ∧
      AUTH_WINDOW ≠ 150 :=
  ⟨rfl, by decide⟩

/-- C4 amended: `_startLC` stops any previous keepalive timer before
starting a new one, so under the invariant at most one timer is live: after
the call the only running timer is the newly started one, whose recurring
interval is `AUTH_WINDOW` = 300 seconds (the source comment calls this half
of the default 600-second session window), and whose body issues a GET with
an empty path (the server root). -/
theorem startLC_single_live_timer (s : LCState) (h : KeepaliveInv s) :
    (∀ t ∈ (startLC s).timers, t.running = true → t = ⟨s.nextId, AUTH_WINDOW, true⟩) ∧
      KeepaliveInv (startLC s) ∧
      LoopingTimer.mk s.nextId AUTH_WINDOW true ∈ (startLC s).timers ∧
      AUTH_WINDOW = 300 ∧
      lcLoopRequest = ("GET", "") := by
  have hmain : ∀ t ∈ (startLC s).timers, t.running = true →
      t = ⟨s.nextId, AUTH_WINDOW, true⟩ := by
    intro t ht hr
    cases hA : s.authLC with
    | none =>
      rw [startLC] at ht
      simp only [hA, List.mem_append, List.mem_singleton] at ht
      rcases ht with ht | ht
      · exact absurd (h t ht hr) (by simp [hA])
      · exact ht
    | some i =>
      rw [startLC] at ht
      simp only [hA, lcStopTimer, List.mem_append, List.mem_map, List.mem_singleton] at ht
      rcases ht with ⟨t0, ht0, heq⟩ | ht
      · by_cases hid : t0.id = i
        · rw [if_pos hid] at heq
          rw [← heq] at hr
          simp at hr
        · rw [if_neg hid] at heq
          subst heq
          have := h t0 ht0 hr
          rw [hA] at this
          exact absurd (Option.some_injective _ this).symm hid
      · exact ht
  have hauth : (startLC s).authLC = some s.nextId := by
    cases hA : s.authLC <;> simp [startLC, hA, lcStopTimer]
  have hmem : LoopingTimer.mk s.nextId AUTH_WINDOW true ∈ (startLC s).timers := by
    cases hA : s.authLC <;> simp [startLC, hA, lcStopTimer]
  refine ⟨hmain, ?_, hmem, rfl, rfl⟩
  intro t ht hr
  rw [hmain t ht hr, hauth]

/-- Witness for C4: starting from a fresh client state (no timers), the new
300-second timer is the only live one. -/
theorem startLC_single_live_timer_witness :
    KeepaliveInv ⟨[], 0, none⟩ ∧
      LoopingTimer.mk 0 AUTH_WINDOW true ∈ (startLC ⟨[], 0, none⟩).timers :=
  ⟨by simp [KeepaliveInv],
    (startLC_single_live_timer ⟨[], 0, none⟩ (by simp [KeepaliveInv])).2.2.1⟩

/-! ## Request engine (`_getPage`)

A header dictionary is a map from header name to value list; `_getPage`
mutates it in place (`headers["Accept"] = ...` and so on) before issuing
the request, so the retry inside `cb_process_resp` — which passes the same
`headers` object — re-applies the same idempotent assignments.
`json.loads(body)['error']` wrapped in try/except (the 404 probe) is
modelled as the client's `probeError` oracle (`none` when parsing fails or
the field is missing).  The response-assembly stage is summarised by
presenting each response as a status code plus its assembled body text, and
the server is a list of responses consumed in order. -/

/-- A header dictionary. -/
def HeadersMap : Type := String → Option (List String)

/-- Dictionary assignment `h[k] = v`. -/
def setH (h : HeadersMap) (k : String) (v : List String) : HeadersMap :=
  Function.update h k (some v)

/-- The slice of `CouchDB` state that `_getPage` uses. -/
structure Client where
  host : String
  port : Nat
  protocol : String
  username : Option String
  password : String
  hasAuthenticator : Bool
  probeError : String → Option String

/-- Source `self.url_template % (uri,)`. -/
def Client.url (c : Client) (uri : String) : String :=
  c.protocol ++ "://" ++ c.host ++ ":" ++ toString c.port ++ uri

/-- The header mutations `_getPage` performs before issuing the request:
`Accept`/`Content-Type` when `isJson`, always `User-Agent`, and an
`Authorization` Basic header whenever a (non-empty) username is
configured. -/
def effHeaders (c : Client) (h : HeadersMap) (isJson : Bool) : HeadersMap :=
  let h1 := if isJson then
      setH (setH h "Accept" ["application/json"]) "Content-Type" ["application/json"]
    else h
  let h2 := setH h1 "User-Agent" ["paisley"]
  match c.username with
  | some u =>
    if u ≠ "" then
      setH h2 "Authorization" ["Basic " ++ b64encode (u ++ ":" ++ c.password)]
    else h2
  | none => h2

/-- The request as handed to the HTTP agent: method, full url, mutated
headers, and the body producer (`None` when `postdata` is falsy). -/
structure WireReq where
  method : String
  url : String
  headers : HeadersMap
  body : Option String

/-- Build the wire request `_getPage` issues. -/
def mkWire (c : Client) (uri method : String) (postdata : Option String)
    (headers : HeadersMap) (isJson : Bool) : WireReq :=
  { method := method
    url := c.url uri
    headers := effHeaders c headers isJson
    body := match postdata with
      | some s => if s ≠ "" then some s else none
      | none => none }

/-- Observable events of a `_getPage` run: requests put on the wire,
`authenticator.authenticate(self)` calls, and `_startLC` calls. -/
inductive Ev where
  | request (w : WireReq)
  | authenticate
  | startLoopingCall

/-- How the deferred returned by `_getPage` resolves. -/
inductive PageResult where
  | ok (body : String)
  | pageRedirect (code : Nat) (body : String)
  | httpError (code : Nat) (body : String)
  | pending

/-- A server response: status code and assembled body text. -/
structure HttpResp where
  code : Nat
  body : String

/-- Source `CouchDB._getPage(uri, method, postdata, headers, isJson)` run against
a list of responses consumed in order (`.pending` when the list runs out).
Mirrors `cb_process_resp`: 3xx raises `PageRedirect`; 401 — or 404 whose
probed `error` field is `"unauthorized"` — with an authenticator configured
authenticates, restarts the keepalive loop and recursively re-issues the
original request; any other code above 399 raises `Error(code, body)`;
otherwise the body is returned. -/
def getPage (c : Client) (uri method : String) (postdata : Option String)
    (headers : HeadersMap) (isJson : Bool) :
    List HttpResp → List Ev × PageResult
  | [] => ([.request (mkWire c uri method postdata headers isJson)], .pending)
  | r :: rest =>
    let w := mkWire c uri method postdata headers isJson
    if 299 < r.code ∧ r.code < 400 then
      ([.request w], .pageRedirect r.code r.body)
    else if (r.code = 401 ∨ (r.code = 404 ∧ c.probeError r.body = some "unauthorized")) ∧
        c.hasAuthenticator = true then
      let next := getPage c uri method postdata (effHeaders c headers isJson) isJson rest
      (.request w :: .authenticate :: .startLoopingCall :: next.1, next.2)
    else if 399 < r.code then
      ([.request w], .httpError r.code r.body)
    else
      ([.request w], .ok r.body)

/-- Re-applying the `_getPage` header mutations is idempotent, so the
retried request carries exactly the same headers. -/
theorem effHeaders_idem (c : Client) (h : HeadersMap) (isJson : Bool) :
    effHeaders c (effHeaders c h isJson) isJson = effHeaders c h isJson := by
  funext x
  cases hu : c.username with
  | none =>
    cases isJson <;>
      · simp only [effHeaders, hu, Bool.false_eq_true, if_false, if_true, setH,
          Function.update_apply]
        split_ifs <;> rfl
  | some u =>
    by_cases hue : u ≠ ""
    · cases isJson <;>
        · simp only [effHeaders, hu, Bool.false_eq_true, if_false, if_true, setH]
          rw [if_pos hue, if_pos hue]
          simp only [Function.update_apply]
          split_ifs <;> rfl
    · cases isJson <;>
        · simp only [effHeaders, hu, Bool.false_eq_true, if_false, if_true, setH]
          rw [if_neg hue, if_neg hue]
          simp only [Function.update_apply]
          split_ifs <;> rfl

/-- C1: a 401 response with an authenticator configured triggers exactly
one `authenticate` call and exactly one re-issue of the original request —
identical method, url, headers, body and `isJson` flag — and the call
resolves with that retry's result; with no authenticator configured the
call fails with `Error(401, body)` and `authenticate` is never invoked. -/
theorem getPage_401_auth_retry (c : Client) (uri method : String)
    (postdata : Option String) (headers : HeadersMap) (isJson : Bool)
    (body retryBody : String) (retryCode : Nat) (rest : List HttpResp)
    (hcode : 199 < retryCode ∧ retryCode ≤ 299) :
    (c.hasAuthenticator = true →
        getPage c uri method postdata headers isJson
            [⟨401, body⟩, ⟨retryCode, retryBody⟩] =
          ([.request (mkWire c uri method postdata headers isJson), .authenticate,
            .startLoopingCall, .request (mkWire c uri method postdata headers isJson)],
            .ok retryBody)) ∧
      (c.hasAuthenticator = false →
        getPage c uri method postdata headers isJson (⟨401, body⟩ :: rest) =
          ([.request (mkWire c uri method postdata headers isJson)],
            .httpError 401 body)) := by
  obtain ⟨h1, h2⟩ := hcode
  have hw : mkWire c uri method postdata (effHeaders c headers isJson) isJson =
      mkWire c uri method postdata headers isJson := by
    simp only [mkWire, effHeaders_idem]
  constructor
  · intro hA
    simp only [getPage]
    rw [if_neg (by first | trivial | simp | omega), if_pos ⟨Or.inl trivial, hA⟩]
    rw [if_neg (by omega), if_neg (by rintro ⟨hc | ⟨hc, _⟩, _⟩ <;> omega),
      if_neg (by omega), hw]
  · intro hA
    simp only [getPage]
    rw [if_neg (by first | trivial | simp | omega),
      if_neg (by rintro ⟨_, hAt⟩; rw [hA] at hAt; cases hAt),
      if_pos (by first | trivial | omega)]

/-- Witness for C1: a concrete client with an authenticator retries the
401 and resolves with the retry's body; the same client without an
authenticator fails with the 401 error. -/
theorem getPage_401_auth_retry_witness :
    (getPage ⟨"h", 5984, "http", none, "", true, fun _ => none⟩ "/x" "GET" none
        (fun _ => none) true [⟨401, "no"⟩, ⟨200, "yes"⟩] =
      ([.request (mkWire ⟨"h", 5984, "http", none, "", true, fun _ => none⟩ "/x" "GET" none
          (fun _ => none) true), .authenticate, .startLoopingCall,
        .request (mkWire ⟨"h", 5984, "http", none, "", true, fun _ => none⟩ "/x" "GET" none
          (fun _ => none) true)], .ok "yes")) ∧
      getPage ⟨"h", 5984, "http", none, "", false, fun _ => none⟩ "/x" "GET" none
          (fun _ => none) true [⟨401, "no"⟩] =
        ([.request (mkWire ⟨"h", 5984, "http", none, "", false, fun _ => none⟩ "/x" "GET" none
          (fun _ => none) true)], .httpError 401 "no") :=
  ⟨(getPage_401_auth_retry ⟨"h", 5984, "http", none, "", true, fun _ => none⟩ "/x" "GET" none
      (fun _ => none) true "no" "yes" 200 [] (by omega)).1 rfl,
    (getPage_401_auth_retry ⟨"h", 5984, "http", none, "", false, fun _ => none⟩ "/x" "GET" none
      (fun _ => none) true "no" "yes" 200 [] (by omega)).2 rfl⟩

/-- C6: a 404 response whose body does not probe to the `"unauthorized"`
marker — because the JSON `error` field holds something else, or because
the body is not parseable (the probe's try/except turns a parse failure
into "not the unauthorized case", never a new error) — never triggers the
authentication path, regardless of whether an authenticator is configured,
and fails with `Error(404, body)`. -/
theorem getPage_404_not_unauthorized (c : Client) (uri method : String)
    (postdata : Option String) (headers : HeadersMap) (isJson : Bool)
    (body : String) (rest : List HttpResp)
    (h : c.probeError body ≠ some "unauthorized") :
    getPage c uri method postdata headers isJson (⟨404, body⟩ :: rest) =
      ([.request (mkWire c uri method postdata headers isJson)],
        .httpError 404 body) := by
  simp only [getPage]
  rw [if_neg (by first | trivial | simp | omega),
    if_neg (by
      rintro ⟨hd, _⟩
      rcases hd with hd | hd
      · first
        | exact hd.elim
        | omega
      · exact h hd.2),
    if_pos (by first | trivial | omega)]

/-- Witness for C6: a 404 whose body probes to `error = "not_found"`, and a
404 whose body fails to parse (probe yields `none`), each fail with the
plain 404 error even though an authenticator is configured. -/
theorem getPage_404_not_unauthorized_witness :
    (getPage ⟨"h", 5984, "http", none, "", true,
        fun b => if b = "nf" then some "not_found" else none⟩ "/x" "GET" none
        (fun _ => none) true [⟨404, "nf"⟩] =
      ([.request (mkWire ⟨"h", 5984, "http", none, "", true,
          fun b => if b = "nf" then some "not_found" else none⟩ "/x" "GET" none
          (fun _ => none) true)], .httpError 404 "nf")) ∧
      getPage ⟨"h", 5984, "http", none, "", true,
          fun b => if b = "nf" then some "not_found" else none⟩ "/x" "GET" none
          (fun _ => none) true [⟨404, "garbage"⟩] =
        ([.request (mkWire ⟨"h", 5984, "http", none, "", true,
            fun b => if b = "nf" then some "not_found" else none⟩ "/x" "GET" none
            (fun _ => none) true)], .httpError 404 "garbage") :=
  ⟨getPage_404_not_unauthorized ⟨"h", 5984, "http", none, "", true,
      fun b => if b = "nf" then some "not_found" else none⟩ "/x" "GET" none
      (fun _ => none) true "nf" [] (by decide),
    getPage_404_not_unauthorized ⟨"h", 5984, "http", none, "", true,
      fun b => if b = "nf" then some "not_found" else none⟩ "/x" "GET" none
      (fun _ => none) true "garbage" [] (by decide)⟩

end Paisley
